import Mathlib

/-!
Verification of the HTTP/3 client (`http3/client.go`) against its
natural-language specification.  The Go code is shallowly embedded: pure
fragments become Lean functions, the stateful control-stream loop becomes a
recursion over the list of incoming frames, stream/connection effects are
recorded in explicit result structures, and Go's `int64`/`uint64` values are
modelled as `Int`/`Nat` (the quantities involved are tiny and never overflow).
-/

namespace H3

/-- The HTTP/3 application error codes surfaced at the protocol boundary
(`ErrCode*` constants of the repository), kept symbolic. -/
inductive ErrCode where
  | noError
  | generalProtocolError
  | internalError
  | streamCreationError
  | closedCriticalStream
  | frameUnexpected
  | frameError
  | excessiveLoad
  | idError
  | settingsError
  | missingSettings
  | requestRejected
  | requestCanceled
  | requestIncomplete
  | messageError
  | connectError
  | versionFallback
  deriving DecidableEq, Repr

/-- A cancellation cause recorded on a request context
(`context.CancelCauseFunc` invoked with `errGoaway`, or a user cancellation). -/
inductive Cause where
  | goaway
  | userCancel
  deriving DecidableEq, Repr

/-- One entry of the client's `runningCtx` registry: the stream id of an
in-flight request together with the cause its cancellation handle has
recorded (`none` while the context is still live). -/
structure ReqCtx where
  id : Int
  cause : Option Cause
  deriving DecidableEq, Repr

/-- Invoking a `context.CancelCauseFunc`: only the first call records a
cause, later calls are no-ops. -/
def cancelCause (c : ReqCtx) (e : Cause) : ReqCtx :=
  match c.cause with
  | some _ => c
  | none => { c with cause := some e }

/-- Effect of an accepted GOAWAY frame with stream id `gid` on the registry
(client.go lines 187-193): every running context whose stream id satisfies
`id >= v.ID` has its cancellation handle invoked with `errGoaway`. -/
def handleGoaway (gid : Int) (reg : List ReqCtx) : List ReqCtx :=
  reg.map fun c => if c.id ≥ gid then cancelCause c Cause.goaway else c

/-- Frames arriving on the control stream, as `parseNextFrame` classifies
them in `readControlStream`: a GOAWAY frame with its stream id, or any other
frame (SETTINGS etc.), which the loop ignores. -/
inductive CFrame where
  | goawayF (id : Int)
  | otherF
  deriving DecidableEq, Repr

/-- How the control-stream loop ends: `ended` when `parseNextFrame` fails
(the input list is exhausted), or `closed code id rest` when the loop called
`conn.CloseWithError(code)` at a GOAWAY frame with stream id `id`, leaving
`rest` unprocessed. -/
inductive CtrlOutcome where
  | ended
  | closed (code : ErrCode) (offending : Int) (rest : List CFrame)
  deriving DecidableEq, Repr

/-- Result of running `readControlStream`: the GOAWAY stream ids it accepted
(in order), the final registry, and how the loop ended. -/
structure CtrlResult where
  accepted : List Int
  registry : List ReqCtx
  outcome : CtrlOutcome
  deriving DecidableEq, Repr

/-- The loop of `client.readControlStream` (client.go lines 171-198).
`lastID` mirrors the Go variable `var lastID quic.StreamID`: the source
never assigns to it, so the recursion passes it along unchanged.  A GOAWAY
frame is rejected - `conn.CloseWithError(ErrCodeIDError)` followed by
`return` - when `v.ID < 0 || v.ID%4 != 0 || (receivedGoaway && v.ID >
lastID)`; otherwise `receivedGoaway` is set and every running context with
stream id `>= v.ID` is cancelled with the goaway cause. -/
def readControlStreamLoop (lastID : Int) (received : Bool) (reg : List ReqCtx)
    (acc : List Int) : List CFrame → CtrlResult
  | [] => ⟨acc, reg, CtrlOutcome.ended⟩
  | CFrame.goawayF id :: rest =>
      if id < 0 ∨ id % 4 ≠ 0 ∨ (received = true ∧ id > lastID) then
        ⟨acc, reg, CtrlOutcome.closed ErrCode.idError id rest⟩
      else
        readControlStreamLoop lastID true (handleGoaway id reg) (acc ++ [id]) rest
  | CFrame.otherF :: rest => readControlStreamLoop lastID received reg acc rest

/-- `client.readControlStream` run on a starting registry and the sequence of
frames parsed off the control stream: `lastID` starts at the `quic.StreamID`
zero value and `receivedGoaway` starts false. -/
def readControlStream (reg : List ReqCtx) (frames : List CFrame) : CtrlResult :=
  readControlStreamLoop 0 false reg [] frames

/-- The GOAWAY stream ids occurring in a frame list, in order. -/
def goawayIds : List CFrame → List Int
  | [] => []
  | CFrame.goawayF id :: rest => id :: goawayIds rest
  | CFrame.otherF :: rest => goawayIds rest

/-- An `http.Header`: a map from field names to lists of values, modelled as
an association list (the Go code indexes it with fixed canonical keys). -/
structure Header where
  entries : List (String × List String)
  deriving DecidableEq, Repr

/-- Map indexing `h[k]` with its `ok` flag: the values stored under key `k`,
or `none` when the key is absent. -/
def Header.lookup (h : Header) (k : String) : Option (List String) :=
  (h.entries.find? fun e => e.1 = k).map (fun e => e.2)

/-- `http.Header.Get`: the first value stored under the key, or the empty
string when the key is absent or has no values. -/
def Header.get (h : Header) (k : String) : String :=
  match h.lookup k with
  | some (v :: _) => v
  | _ => ""

/-- `http.Header.Del` / `delete(m, k)`: removes the key. -/
def Header.del (h : Header) (k : String) : Header :=
  ⟨h.entries.filter fun e => ¬ e.1 = k⟩

/-- The parts of an `http.Request` the embedded code paths inspect: the
method, the header and the declared `ContentLength`. -/
structure Request where
  method : String
  header : Header
  contentLength : Int
  deriving DecidableEq, Repr

/-- The gzip decision of `client.doRequest` (client.go lines 428-431):
`requestGzip` is set exactly when compression is not disabled, the method is
not HEAD, and the caller set neither an Accept-Encoding nor a Range header. -/
def requestGzip (disableCompression : Bool) (req : Request) : Bool :=
  if disableCompression = false ∧ req.method ≠ "HEAD" ∧
      Header.get req.header "Accept-Encoding" = "" ∧
      Header.get req.header "Range" = "" then
    true
  else false

/-- The options of `RoundTripOpt` that the embedded paths consult. -/
structure RTOpt where
  checkSettingsPresent : Bool
  checkSettingsRejects : Bool
  dontCloseRequestStream : Bool
  deriving DecidableEq, Repr

/-- The state of the client and of the surrounding channels observable by one
call of `client.roundTripOpt` before it opens the request stream: whether the
authority check passes, whether the one-time dial recorded an error, the
`receivedGoaway` flag, and which of the awaited channels are ready. -/
structure RTEnv where
  authorityOK : Bool
  dialErr : Bool
  receivedGoaway : Bool
  handshakeDone : Bool
  reqCtxDone : Bool
  settingsReceived : Bool
  connCtxDone : Bool
  deriving DecidableEq, Repr

/-- Errors `client.roundTripOpt` can return before opening a stream. -/
inductive PreErr where
  | wrongClientBug
  | handshakeErr
  | goaway
  | reqCtxErr
  | connCtxErr
  | settingsRejected
  deriving DecidableEq, Repr

/-- Result of the phase of `client.roundTripOpt` that precedes
`conn.OpenStreamSync`: a returned error (no stream is opened), the decision
to open a stream and send the request `req`, or a block on a channel that is
not ready. -/
inductive PrePhase where
  | fail (e : PreErr)
  | openStream (req : Request)
  | blocked
  deriving DecidableEq, Repr

/-- The optional settings-validation step of `client.roundTripOpt` (client.go
lines 303-313): when `opt.CheckSettings` is set, wait for the server's
SETTINGS frame or the end of the connection, then run the validator. -/
def checkSettingsStep (env : RTEnv) (opt : RTOpt) (req : Request) : PrePhase :=
  if opt.checkSettingsPresent = true then
    if env.settingsReceived = true then
      if opt.checkSettingsRejects = true then PrePhase.fail PreErr.settingsRejected
      else PrePhase.openStream req
    else if env.connCtxDone = true then PrePhase.fail PreErr.connCtxErr
    else PrePhase.blocked
  else PrePhase.openStream req

/-- The phase of `client.roundTripOpt` before `conn.OpenStreamSync` (client.go
lines 262-315): the authority check, the cached dial error, the fail-fast on
`receivedGoaway`, the 0-RTT method switch (which rewrites the method on a
copy and skips the handshake wait), the handshake-complete-or-context-done
select for every other method, and the optional settings check.  When two
awaited channels are ready at once the Go `select` picks either; the model
resolves the tie the way the first listed case does. -/
def roundTripOptPre (env : RTEnv) (opt : RTOpt) (req : Request) : PrePhase :=
  if env.authorityOK = false then PrePhase.fail PreErr.wrongClientBug
  else if env.dialErr = true then PrePhase.fail PreErr.handshakeErr
  else if env.receivedGoaway = true then PrePhase.fail PreErr.goaway
  else if req.method = "GET_0RTT" then
    checkSettingsStep env opt { req with method := "GET" }
  else if req.method = "HEAD_0RTT" then
    checkSettingsStep env opt { req with method := "HEAD" }
  else if env.handshakeDone = true then checkSettingsStep env opt req
  else if env.reqCtxDone = true then PrePhase.fail PreErr.reqCtxErr
  else PrePhase.blocked

/-- Decimal digit run parsed to a number: `none` when empty or when a
non-digit occurs. -/
def parseDigits (cs : List Char) : Option Nat :=
  if cs.isEmpty then none
  else
    cs.foldl
      (fun acc c =>
        match acc with
        | none => none
        | some n => if c.isDigit then some (n * 10 + (c.toNat - 48)) else none)
      (some 0)

/-- Go's `strconv.ParseInt(s, 10, 64)`: an optional sign followed by at
least one decimal digit, with the value required to fit in a signed 64-bit
integer; `none` models a non-nil error. -/
def parseInt64 (s : String) : Option Int :=
  let signed : Int × List Char :=
    match s.toList with
    | '+' :: rest => (1, rest)
    | '-' :: rest => (-1, rest)
    | cs => (1, cs)
  match parseDigits signed.2 with
  | none => none
  | some n =>
      let v : Int := signed.1 * n
      if v < -(2 ^ 63) ∨ v > 2 ^ 63 - 1 then none else some v

/-- The parts of an `http.Response` the embedded code paths build or the
claims inspect. -/
structure Response where
  statusCode : Int
  header : Header
  contentLength : Int
  uncompressed : Bool
  deriving DecidableEq, Repr

/-- Modelled from the spec: `responseFromHeaders` (http3/headers.go, not a
file under src/) builds the Response from the decoded header fields.  The
spec's step "if a Content-Length header is present and non-negative, wrap the
stream with a hard length cap ... and record the cap as ContentLength" pins
the ContentLength this function hands to `client.doRequest` (client.go line
490 compares it against the presence of the Content-Length header) to the
value parsed from that header; absent the header the field keeps the zero
value. -/
def responseFromHeaders (status : Int) (h : Header) : Response :=
  { statusCode := status
    header := h
    contentLength :=
      match Header.lookup h "Content-Length" with
      | some (c :: _) => (parseInt64 c).getD 0
      | _ => 0
    uncompressed := false }

/-- The content-length reconciliation block of `client.doRequest` (client.go
lines 497-509): outside the Transfer-Encoding / 1xx / 204 / successful
CONNECT exceptions, ContentLength is reset to -1 and then, when the response
carries exactly one Content-Length value that parses as an `int64`, set to
that value.  In the exception cases the block is skipped. -/
def reconcileContentLength (reqMethod : String) (res : Response) : Response :=
  let hasTransferEncoding := (Header.lookup res.header "Transfer-Encoding").isSome
  let isInformational := 100 ≤ res.statusCode ∧ res.statusCode < 200
  let isNoContent := res.statusCode = 204
  let isSuccessfulConnect :=
    reqMethod = "CONNECT" ∧ 200 ≤ res.statusCode ∧ res.statusCode < 300
  if ¬hasTransferEncoding ∧ ¬isInformational ∧ ¬isNoContent ∧ ¬isSuccessfulConnect then
    let res1 := { res with contentLength := -1 }
    match Header.lookup res.header "Content-Length" with
    | some [c] =>
        match parseInt64 c with
        | some v => { res1 with contentLength := v }
        | none => res1
    | some _ => res1
    | none => res1
  else res

/-- The transparent-decompression block of `client.doRequest` (client.go
lines 511-519): when this client negotiated gzip and the response declares
`Content-Encoding: gzip`, the encoding and length headers are stripped,
ContentLength becomes -1 and the response is marked uncompressed. -/
def applyGzipBlock (reqGzip : Bool) (res : Response) : Response :=
  if reqGzip = true ∧ Header.get res.header "Content-Encoding" = "gzip" then
    { res with
      header := Header.del (Header.del res.header "Content-Encoding") "Content-Length"
      contentLength := -1
      uncompressed := true }
  else res

/-- The response a successful `client.doRequest` returns, as a function of
the request method, the negotiated gzip flag and the decoded status and
header fields: `responseFromHeaders`, then the content-length reconciliation
block, then the gzip block. -/
def doRequestResponse (reqMethod : String) (reqGzip : Bool) (status : Int)
    (h : Header) : Response :=
  applyGzipBlock reqGzip (reconcileContentLength reqMethod (responseFromHeaders status h))

/-- What `client.sendRequestBody` did: the bytes written to the request
stream, the code of a `CancelWrite` call if one was made, and the error
returned. -/
structure SendBodyResult where
  written : List UInt8
  canceledWrite : Option ErrCode
  failure : Option (Int × Int)
  deriving DecidableEq, Repr

/-- `client.sendRequestBody` (client.go lines 403-425) on a body source that
delivers the byte list `body` and then a clean end of stream.  With
`contentLength = -1` the whole body is copied.  Otherwise
`io.CopyBuffer(str, io.LimitReader(sr, contentLength), buf)` writes the first
`contentLength` bytes, the drain copy to `io.Discard` reads the rest, and if
the total number of bytes read exceeds the declared length the write side is
cancelled with `ErrCodeRequestCanceled` and the error
`"http: ContentLength=%d with Body length %d"` - recorded here as the pair
(declared, actual) - is returned. -/
def sendRequestBody (contentLength : Int) (body : List UInt8) : SendBodyResult :=
  if contentLength = -1 then
    { written := body, canceledWrite := none, failure := none }
  else
    let limited := body.take contentLength.toNat
    let n : Int := limited.length + (body.drop contentLength.toNat).length
    if n > contentLength then
      { written := limited
        canceledWrite := some ErrCode.requestCanceled
        failure := some (contentLength, n) }
    else { written := limited, canceledWrite := none, failure := none }

/-- Frames `parseNextFrame` can yield on the request stream: a HEADERS frame
carrying its declared length, a DATA frame, or any other frame type. -/
inductive ReqFrame where
  | headers (length : Nat)
  | dataF (length : Nat)
  | unknown
  deriving DecidableEq, Repr

/-- Outcome of `parseNextFrame` on the request stream: a frame, or an error. -/
inductive ParseOutcome where
  | ok (f : ReqFrame)
  | err
  deriving DecidableEq, Repr

/-- How the response-receive path of `client.doRequest` ends: the header
block decoded (response building follows), a stream-level error
(`newStreamError`), or a connection-level error (`newConnError`). -/
inductive RecvOutcome where
  | decoded
  | failStream (code : ErrCode)
  | failConn (code : ErrCode)
  deriving DecidableEq, Repr

/-- The default for `client.maxHeaderBytes`, 10 MB
(`defaultMaxResponseHeaderBytes = 10 * 1 << 20`). -/
def defaultMaxResponseHeaderBytes : Nat := 10 * (1 <<< 20)

/-- `client.maxHeaderBytes` (client.go lines 245-250): the configured
`opts.MaxHeaderBytes` when positive, the default otherwise. -/
def maxHeaderBytes (optMaxHeaderBytes : Int) : Nat :=
  if optMaxHeaderBytes ≤ 0 then defaultMaxResponseHeaderBytes
  else optMaxHeaderBytes.toNat

/-- The response-receive path of `client.doRequest` (client.go lines
459-478): a `parseNextFrame` error is a stream-level FRAME_ERROR; a first
frame that is not a HEADERS frame is a connection-level FRAME_UNEXPECTED
error; a HEADERS frame whose declared length exceeds `maxHeaderBytes` is a
stream-level FRAME_ERROR; a failing `io.ReadFull` of the header block is a
stream-level REQUEST_INCOMPLETE error; a failing QPACK decode is a
connection-level general protocol error. -/
def receiveResponseHeaders (optMaxHeaderBytes : Int) (parsed : ParseOutcome)
    (readFullOK : Bool) (decodeOK : Bool) : RecvOutcome :=
  match parsed with
  | ParseOutcome.err => RecvOutcome.failStream ErrCode.frameError
  | ParseOutcome.ok f =>
      match f with
      | ReqFrame.headers len =>
          if len > maxHeaderBytes optMaxHeaderBytes then
            RecvOutcome.failStream ErrCode.frameError
          else if readFullOK = false then
            RecvOutcome.failStream ErrCode.requestIncomplete
          else if decodeOK = true then RecvOutcome.decoded
          else RecvOutcome.failConn ErrCode.generalProtocolError
      | _ => RecvOutcome.failConn ErrCode.frameUnexpected

/-- The error of `req.Context()` when that context is done. -/
inductive CtxErr where
  | canceled
  | deadlineExceeded
  deriving DecidableEq, Repr

/-- The errors a failing round trip can surface: the dedicated goaway error
`errGoaway`, the caller's own context error, or any other request error
(`maybeReplaceError(rerr.err)`), kept abstract behind a tag. -/
inductive HErr where
  | goaway
  | ofCtx (c : CtxErr)
  | wrapped (tag : Nat)
  deriving DecidableEq, Repr

/-- The error `client.roundTripOpt` returns on a failing request (client.go
lines 362-380): when the recorded cancellation cause of the derived request
context is `errGoaway`, the goaway error; otherwise the wrapped request
error. -/
def roundTripOptFailErr (causeIsGoaway : Bool) (e : HErr) : HErr :=
  if causeIsGoaway = true then HErr.goaway else e

/-- The wrapper `client.RoundTripOpt` (client.go lines 253-260): a non-nil
error is replaced by `req.Context().Err()` whenever the caller's own request
context is done. -/
def RoundTripOptErr (e : HErr) (reqCtxErr : Option CtxErr) : HErr :=
  match reqCtxErr with
  | some c => HErr.ofCtx c
  | none => e

/-- A heap of `http.Request` values: Go pointers become addresses into
`mem`, every address below `next` is allocated. -/
structure ReqStore where
  mem : Nat → Request
  next : Nat

/-- Dereferencing a request pointer, `*req`. -/
def ReqStore.read (st : ReqStore) (a : Nat) : Request := st.mem a

/-- `reqCopy := *req` followed by `req = &reqCopy`: a fresh cell holding the
shallow copy, whose address is returned. -/
def ReqStore.alloc (st : ReqStore) (r : Request) : ReqStore × Nat :=
  ({ mem := fun b => if b = st.next then r else st.mem b, next := st.next + 1 },
    st.next)

/-- `req.Method = m`: a field write through a request pointer. -/
def ReqStore.writeMethod (st : ReqStore) (a : Nat) (m : String) : ReqStore :=
  { st with
    mem := fun b => if b = a then { st.mem a with method := m } else st.mem b }

/-- The 0-RTT branch of the method switch of `client.roundTripOpt` (client.go
lines 283-294) at the level of the request heap: for `MethodGet0RTT` and
`MethodHead0RTT` the request is copied (`reqCopy := *req; req = &reqCopy`)
and the method of the copy rewritten; any other method leaves the pointer
alone.  Returns the heap and the pointer `req` holds afterwards. -/
def rewrite0RTT (st : ReqStore) (reqPtr : Nat) : ReqStore × Nat :=
  if (st.read reqPtr).method = "GET_0RTT" then
    let p := st.alloc (st.read reqPtr)
    (ReqStore.writeMethod p.1 p.2 "GET", p.2)
  else if (st.read reqPtr).method = "HEAD_0RTT" then
    let p := st.alloc (st.read reqPtr)
    (ReqStore.writeMethod p.1 p.2 "HEAD", p.2)
  else (st, reqPtr)

/-- Concatenation splits the GOAWAY ids of a frame list. -/
theorem goawayIds_append (l₁ l₂ : List CFrame) :
    goawayIds (l₁ ++ l₂) = goawayIds l₁ ++ goawayIds l₂ := by
  induction l₁ with
  | nil => rfl
  | cons f rest ih => cases f <;> simp [goawayIds, ih]

/-- Invariant of the control-stream loop with `lastID = 0` (its value
throughout, since the source never assigns it): starting from a trace `acc`
of already accepted GOAWAY ids that is valid and non-increasing, with
`received` recording whether the trace is nonempty, every id the loop accepts
is non-negative and a multiple of 4, the accepted trace stays non-increasing,
a run that ends at the end of the input accepted every GOAWAY id of the
input, and a run that closes the connection did so with the ID_ERROR code at
a GOAWAY frame, leaving everything after it unprocessed and having accepted
every GOAWAY id before it. -/
theorem readControlStreamLoop_spec (frames : List CFrame) (received : Bool)
    (reg : List ReqCtx) (acc : List Int)
    (hrec : received = true ↔ acc ≠ [])
    (hvalid : ∀ a ∈ acc, 0 ≤ a ∧ a % 4 = 0)
    (hchain : acc.Chain' (fun a b => b ≤ a)) :
    (∀ a ∈ (readControlStreamLoop 0 received reg acc frames).accepted,
        0 ≤ a ∧ a % 4 = 0) ∧
    (readControlStreamLoop 0 received reg acc frames).accepted.Chain'
        (fun a b => b ≤ a) ∧
    ((readControlStreamLoop 0 received reg acc frames).outcome = CtrlOutcome.ended →
      (readControlStreamLoop 0 received reg acc frames).accepted
        = acc ++ goawayIds frames) ∧
    (∀ g rest,
      (readControlStreamLoop 0 received reg acc frames).outcome
          = CtrlOutcome.closed ErrCode.idError g rest →
      ∃ pre, frames = pre ++ CFrame.goawayF g :: rest ∧
        (readControlStreamLoop 0 received reg acc frames).accepted
          = acc ++ goawayIds pre) := by
  induction frames generalizing received reg acc with
  | nil =>
      refine ⟨hvalid, hchain, ?_, ?_⟩
      · intro _
        simp [readControlStreamLoop, goawayIds]
      · intro g rest h
        simp [readControlStreamLoop] at h
  | cons f rest ih =>
      cases f with
      | otherF =>
          have heq : readControlStreamLoop 0 received reg acc (CFrame.otherF :: rest)
              = readControlStreamLoop 0 received reg acc rest := rfl
          obtain ⟨h1, h2, h3, h4⟩ := ih received reg acc hrec hvalid hchain
          rw [heq]
          refine ⟨h1, h2, ?_, ?_⟩
          · intro he
            rw [h3 he]
            rfl
          · intro g r hcl
            obtain ⟨pre, hpre, hacc⟩ := h4 g r hcl
            refine ⟨CFrame.otherF :: pre, by simp [hpre], ?_⟩
            rw [hacc]
            rfl
      | goawayF i =>
          by_cases hc : i < 0 ∨ i % 4 ≠ 0 ∨ (received = true ∧ i > 0)
          · have heq : readControlStreamLoop 0 received reg acc
                (CFrame.goawayF i :: rest)
                = ⟨acc, reg, CtrlOutcome.closed ErrCode.idError i rest⟩ := by
              simp only [readControlStreamLoop, if_pos hc]
            rw [heq]
            refine ⟨hvalid, hchain, by simp, ?_⟩
            intro g r h
            simp only [CtrlOutcome.closed.injEq] at h
            refine ⟨[], ?_, by simp [goawayIds]⟩
            simp [h.2.1, h.2.2]
          · have heq : readControlStreamLoop 0 received reg acc
                (CFrame.goawayF i :: rest)
                = readControlStreamLoop 0 true (handleGoaway i reg) (acc ++ [i]) rest := by
              simp only [readControlStreamLoop, if_neg hc]
            push_neg at hc
            obtain ⟨hc1, hc2, hc3⟩ := hc
            have h0 : 0 ≤ i := hc1
            have hrec' : (true = true) ↔ (acc ++ [i] ≠ []) := by simp
            have hvalid' : ∀ a ∈ acc ++ [i], 0 ≤ a ∧ a % 4 = 0 := by
              intro a ha
              rcases List.mem_append.mp ha with ha | ha
              · exact hvalid a ha
              · rcases List.mem_singleton.mp ha with rfl
                exact ⟨h0, hc2⟩
            have hchain' : (acc ++ [i]).Chain' (fun a b => b ≤ a) := by
              rw [List.chain'_append]
              refine ⟨hchain, List.chain'_singleton i, ?_⟩
              intro x hx y hy
              rcases List.head?_eq_head (l := [i]) (by simp) ▸ hy with hy'
              have hyi : y = i := by
                have := hy'
                simp at this
                exact this.symm
              have haccne : acc ≠ [] := by
                intro hnil
                rw [hnil] at hx
                simp at hx
              have hi0 : i ≤ 0 := hc3 (hrec.mpr haccne)
              have hx0 : 0 ≤ x := by
                have := hvalid x (List.mem_of_mem_getLast? hx)
                exact this.1
              subst hyi
              exact le_trans hi0 hx0
            obtain ⟨g1, g2, g3, g4⟩ :=
              ih true (handleGoaway i reg) (acc ++ [i]) hrec' hvalid' hchain'
            rw [heq]
            refine ⟨g1, g2, ?_, ?_⟩
            · intro he
              rw [g3 he]
              simp [goawayIds]
            · intro g r h
              obtain ⟨pre, hpre, hacc⟩ := g4 g r h
              refine ⟨CFrame.goawayF i :: pre, by simp [hpre], ?_⟩
              rw [hacc]
              simp [goawayIds]

/-- C1: for every sequence of frames read off the control stream, the GOAWAY
ids the loop accepts are non-negative, multiples of 4 and non-increasing
(each at most the previously accepted id); a run that reaches the end of the
input accepted every GOAWAY frame; a run that closes did so with the
ID_ERROR code at a GOAWAY frame and stopped there, everything after it left
unprocessed; and whenever the loop runs past a GOAWAY frame (no close), that
frame's id was non-negative, a multiple of 4 and not greater than the
previously accepted id - so any frame violating these conditions can only end
in the ID_ERROR close. -/
theorem goaway_accept_fence (reg : List ReqCtx) (frames : List CFrame) :
    (∀ a ∈ (readControlStream reg frames).accepted, 0 ≤ a ∧ a % 4 = 0) ∧
    (readControlStream reg frames).accepted.Chain' (fun a b => b ≤ a) ∧
    ((readControlStream reg frames).outcome = CtrlOutcome.ended →
      (readControlStream reg frames).accepted = goawayIds frames) ∧
    (∀ g rest,
      (readControlStream reg frames).outcome
          = CtrlOutcome.closed ErrCode.idError g rest →
      ∃ pre, frames = pre ++ CFrame.goawayF g :: rest ∧
        (readControlStream reg frames).accepted = goawayIds pre) ∧
    ((readControlStream reg frames).outcome = CtrlOutcome.ended →
      ∀ pre g rest, frames = pre ++ CFrame.goawayF g :: rest →
        0 ≤ g ∧ g % 4 = 0 ∧ ∀ a ∈ (goawayIds pre).getLast?, g ≤ a) := by
  obtain ⟨h1, h2, h3, h4⟩ := readControlStreamLoop_spec frames false reg []
    (by simp) (by simp) List.chain'_nil
  refine ⟨h1, h2, ?_, ?_, ?_⟩
  · intro he
    simpa using h3 he
  · intro g r h
    obtain ⟨pre, hp, ha⟩ := h4 g r h
    exact ⟨pre, hp, by simpa using ha⟩
  · intro he pre g r hfr
    subst hfr
    have hacc : (readControlStream reg (pre ++ CFrame.goawayF g :: r)).accepted
        = goawayIds pre ++ g :: goawayIds r := by
      have := h3 he
      simp only [List.nil_append] at this
      show (readControlStreamLoop 0 false reg []
          (pre ++ CFrame.goawayF g :: r)).accepted = goawayIds pre ++ g :: goawayIds r
      rw [this, goawayIds_append]
      rfl
    have hg : g ∈ (readControlStream reg (pre ++ CFrame.goawayF g :: r)).accepted := by
      rw [hacc]
      simp
    have hvg := h1 g hg
    refine ⟨hvg.1, hvg.2, ?_⟩
    intro a ha
    have hch : ((goawayIds pre) ++ g :: goawayIds r).Chain' (fun a b => b ≤ a) := by
      rw [← hacc]
      exact h2
    exact (List.chain'_append.mp hch).2.2 a ha g (by simp)

/-- C2: the effect of an accepted GOAWAY frame with id `gid` on the running
registry - for every context still live (no cause recorded), its cancellation
handle records the goaway cause exactly when its stream id is at least
`gid`, and a context with a smaller stream id is left entirely unchanged. -/
theorem goaway_cancel_ge_iff (gid : Int) (reg : List ReqCtx) (i : Nat)
    (hi : i < reg.length) (hi2 : i < (handleGoaway gid reg).length)
    (hfresh : (reg.get ⟨i, hi⟩).cause = none) :
    (((handleGoaway gid reg).get ⟨i, hi2⟩).cause = some Cause.goaway ↔
      gid ≤ (reg.get ⟨i, hi⟩).id) ∧
    (¬ gid ≤ (reg.get ⟨i, hi⟩).id →
      (handleGoaway gid reg).get ⟨i, hi2⟩ = reg.get ⟨i, hi⟩) := by
  have hmap : (handleGoaway gid reg).get ⟨i, hi2⟩
      = if (reg.get ⟨i, hi⟩).id ≥ gid then
          cancelCause (reg.get ⟨i, hi⟩) Cause.goaway
        else reg.get ⟨i, hi⟩ := by
    simp [handleGoaway]
  constructor
  · rw [hmap]
    by_cases hle : gid ≤ (reg.get ⟨i, hi⟩).id
    · rw [if_pos hle]
      simp only [cancelCause, hfresh]
      simpa using hle
    · rw [if_neg hle]
      rw [hfresh]
      simpa using hle
  · intro hlt
    rw [hmap, if_neg hlt]

/-- Witness for C2 at a concrete registry and GOAWAY id: after a GOAWAY with
id 8, the live context with stream id 8 records the goaway cause and the
live context with stream id 4 is untouched. -/
theorem goaway_cancel_ge_iff_witness :
    ((handleGoaway 8 [⟨4, none⟩, ⟨8, none⟩]).get
        ⟨1, by simp [handleGoaway]⟩).cause = some Cause.goaway ∧
    (handleGoaway 8 [⟨4, none⟩, ⟨8, none⟩]).get ⟨0, by simp [handleGoaway]⟩
      = ⟨4, none⟩ := by
  constructor
  · exact (goaway_cancel_ge_iff 8 [⟨4, none⟩, ⟨8, none⟩] 1 (by simp)
      (by simp [handleGoaway]) rfl).1.mpr (by norm_num)
  · exact (goaway_cancel_ge_iff 8 [⟨4, none⟩, ⟨8, none⟩] 0 (by simp)
      (by simp [handleGoaway]) rfl).2 (by norm_num)

/-- C3: a call of `client.roundTripOpt` that passes the authority check and
the cached dial outcome but finds the `receivedGoaway` flag set returns the
dedicated goaway error at once, and in particular never reaches
`conn.OpenStreamSync`. -/
theorem goaway_fail_fast (env : RTEnv) (opt : RTOpt) (req : Request)
    (h1 : env.authorityOK = true) (h2 : env.dialErr = false)
    (h3 : env.receivedGoaway = true) :
    roundTripOptPre env opt req = PrePhase.fail PreErr.goaway ∧
    ∀ r, roundTripOptPre env opt req ≠ PrePhase.openStream r := by
  have h : roundTripOptPre env opt req = PrePhase.fail PreErr.goaway := by
    simp [roundTripOptPre, h1, h2, h3]
  exact ⟨h, fun r hr => by simp [h] at hr⟩

/-- Witness for C3 at a concrete environment with the goaway flag set. -/
theorem goaway_fail_fast_witness :
    roundTripOptPre ⟨true, false, true, true, false, false, false⟩
        ⟨false, false, false⟩ { method := "GET", header := ⟨[]⟩, contentLength := 0 }
      = PrePhase.fail PreErr.goaway :=
  (goaway_fail_fast ⟨true, false, true, true, false, false, false⟩
    ⟨false, false, false⟩ { method := "GET", header := ⟨[]⟩, contentLength := 0 }
    rfl rfl rfl).1

/-- C4: past the authority, dial and goaway checks and with no settings
validator installed, a request whose method is one of the 0-RTT
pseudo-methods proceeds straight to opening the stream with the method
rewritten on a copy - whatever the state of the handshake or of the caller's
context - while a request with any other method proceeds only once the
handshake is complete, returns the caller's own context error when that
context is done first, and keeps waiting when neither is ready. -/
theorem zero_rtt_bypass_handshake_wait (env : RTEnv) (opt : RTOpt) (req : Request)
    (h1 : env.authorityOK = true) (h2 : env.dialErr = false)
    (h3 : env.receivedGoaway = false) (h4 : opt.checkSettingsPresent = false) :
    (req.method = "GET_0RTT" →
      roundTripOptPre env opt req = PrePhase.openStream { req with method := "GET" }) ∧
    (req.method = "HEAD_0RTT" →
      roundTripOptPre env opt req = PrePhase.openStream { req with method := "HEAD" }) ∧
    (req.method ≠ "GET_0RTT" → req.method ≠ "HEAD_0RTT" →
      ((env.handshakeDone = true →
          roundTripOptPre env opt req = PrePhase.openStream req) ∧
        (env.handshakeDone = false → env.reqCtxDone = true →
          roundTripOptPre env opt req = PrePhase.fail PreErr.reqCtxErr) ∧
        (env.handshakeDone = false → env.reqCtxDone = false →
          roundTripOptPre env opt req = PrePhase.blocked))) := by
  refine ⟨?_, ?_, ?_⟩
  · intro hm
    simp [roundTripOptPre, checkSettingsStep, h1, h2, h3, h4, hm]
  · intro hm
    simp [roundTripOptPre, checkSettingsStep, h1, h2, h3, h4, hm]
  · intro hg hh
    refine ⟨?_, ?_, ?_⟩
    · intro hd
      simp [roundTripOptPre, checkSettingsStep, h1, h2, h3, h4, hg, hh, hd]
    · intro hd hcd
      simp [roundTripOptPre, checkSettingsStep, h1, h2, h3, h4, hg, hh, hd, hcd]
    · intro hd hcd
      simp [roundTripOptPre, checkSettingsStep, h1, h2, h3, h4, hg, hh, hd, hcd]

/-- Witness for C4: a GET_0RTT request proceeds to open its stream, as a GET,
even though the handshake is not complete and the caller's context is
already done. -/
theorem zero_rtt_bypass_handshake_wait_witness :
    roundTripOptPre ⟨true, false, false, false, true, false, false⟩
        ⟨false, false, false⟩
        { method := "GET_0RTT", header := ⟨[]⟩, contentLength := 0 }
      = PrePhase.openStream { method := "GET", header := ⟨[]⟩, contentLength := 0 } :=
  (zero_rtt_bypass_handshake_wait ⟨true, false, false, false, true, false, false⟩
    ⟨false, false, false⟩ { method := "GET_0RTT", header := ⟨[]⟩, contentLength := 0 }
    rfl rfl rfl rfl).1 rfl

/-- C5: the automatic gzip negotiation flag of `client.doRequest` is set
exactly when compression is not disabled, the method is not HEAD and the
caller set neither an Accept-Encoding nor a Range header; in particular a
HEAD request never gets it. -/
theorem gzip_auto_header_iff (disableCompression : Bool) (req : Request) :
    (requestGzip disableCompression req = true ↔
      disableCompression = false ∧ req.method ≠ "HEAD" ∧
        Header.get req.header "Accept-Encoding" = "" ∧
        Header.get req.header "Range" = "") ∧
    (req.method = "HEAD" → requestGzip disableCompression req = false) := by
  constructor
  · unfold requestGzip
    split
    · rename_i hcond
      exact ⟨fun _ => hcond, fun _ => rfl⟩
    · rename_i hcond
      constructor
      · intro h
        exact absurd h (by simp)
      · intro h
        exact absurd h hcond
  · intro hm
    unfold requestGzip
    rw [if_neg]
    intro hcond
    exact hcond.2.1 hm

/-- Counterexample to C6 as stated: a 204 response carrying the header
`Content-Length: 5` ends with ContentLength 5, not -1, because the
reconciliation block of `client.doRequest` is skipped for 204 responses and
the value parsed from the header is kept. -/
theorem noContent_contentLength_counterexample :
    (doRequestResponse "GET" false 204 ⟨[("Content-Length", ["5"])]⟩).contentLength
        = 5 ∧
    (doRequestResponse "GET" false 204 ⟨[("Content-Length", ["5"])]⟩).contentLength
        ≠ -1 := by
  constructor
  · rfl
  · decide

/-- C6 as amended: for 204, 1xx, successful-CONNECT or Transfer-Encoding
responses the content-length reconciliation block of `client.doRequest` is
skipped entirely, so (outside the gzip-decompression path) the returned
Response keeps the ContentLength parsed from the decoded header fields - the
Content-Length header's own value when one is present - instead of being
forced to -1. -/
theorem contentLength_exception_keeps_header (m : String) (gz : Bool)
    (status : Int) (h : Header)
    (hex : status = 204 ∨ (100 ≤ status ∧ status < 200) ∨
      (m = "CONNECT" ∧ 200 ≤ status ∧ status < 300) ∨
      (Header.lookup h "Transfer-Encoding").isSome = true)
    (hgz : Header.get h "Content-Encoding" ≠ "gzip") :
    (doRequestResponse m gz status h).contentLength
        = (responseFromHeaders status h).contentLength ∧
    (∀ c v, Header.lookup h "Content-Length" = some [c] → parseInt64 c = some v →
      (doRequestResponse m gz status h).contentLength = v) := by
  have hrec : reconcileContentLength m (responseFromHeaders status h)
      = responseFromHeaders status h := by
    simp only [reconcileContentLength]
    split
    · rename_i hcond
      exfalso
      rcases hex with h204 | hinf | hconn | hte
      · exact hcond.2.2.1 h204
      · exact hcond.2.1 hinf
      · exact hcond.2.2.2 hconn
      · exact hcond.1 hte
    · rfl
  have hgzb : applyGzipBlock gz (reconcileContentLength m (responseFromHeaders status h))
      = reconcileContentLength m (responseFromHeaders status h) := by
    rw [hrec]
    unfold applyGzipBlock
    rw [if_neg]
    intro hcond
    exact hgz hcond.2
  have hmain : (doRequestResponse m gz status h).contentLength
      = (responseFromHeaders status h).contentLength := by
    unfold doRequestResponse
    rw [hgzb, hrec]
  refine ⟨hmain, ?_⟩
  intro c v hc hv
  rw [hmain]
  simp [responseFromHeaders, hc, hv]

/-- Witness for C6's amended statement: the counterexample response (204 with
`Content-Length: 5`) keeps ContentLength 5 through the whole pipeline. -/
theorem contentLength_exception_keeps_header_witness :
    (doRequestResponse "GET" false 204 ⟨[("Content-Length", ["5"])]⟩).contentLength
      = 5 :=
  (contentLength_exception_keeps_header "GET" false 204
      ⟨[("Content-Length", ["5"])]⟩ (Or.inl rfl) (by decide)).2
    "5" 5 (by decide) (by decide)

/-- C7: sending a request body with a declared positive content length `L`
over a source that delivers the byte list `body` writes exactly the first
`L` bytes (never more) to the stream; when the source delivers more than `L`
bytes the write side is cancelled with the request-canceled code and the
length-mismatch error reporting the declared and the actual length is
returned, and when it delivers at most `L` bytes neither happens. -/
theorem sendRequestBody_length_cap (contentLength : Int) (body : List UInt8)
    (hL : 0 < contentLength) :
    ((body.length : Int) > contentLength →
      (sendRequestBody contentLength body).written = body.take contentLength.toNat ∧
      (((sendRequestBody contentLength body).written.length : Int) ≤ contentLength) ∧
      (sendRequestBody contentLength body).canceledWrite
          = some ErrCode.requestCanceled ∧
      (sendRequestBody contentLength body).failure
          = some (contentLength, (body.length : Int))) ∧
    ((body.length : Int) ≤ contentLength →
      (sendRequestBody contentLength body).canceledWrite = none ∧
      (sendRequestBody contentLength body).failure = none ∧
      (sendRequestBody contentLength body).written = body.take contentLength.toNat) := by
  have hne : ¬ contentLength = -1 := by omega
  have hn : (((body.take contentLength.toNat).length : Int) +
      ((body.drop contentLength.toNat).length : Int)) = (body.length : Int) := by
    simp only [List.length_take, List.length_drop]
    omega
  constructor
  · intro hgt
    have hcond : (((body.take contentLength.toNat).length : Int) +
        ((body.drop contentLength.toNat).length : Int)) > contentLength := by omega
    have hres : sendRequestBody contentLength body =
        { written := body.take contentLength.toNat
          canceledWrite := some ErrCode.requestCanceled
          failure := some (contentLength,
            ((body.take contentLength.toNat).length : Int) +
              ((body.drop contentLength.toNat).length : Int)) } := by
      simp only [sendRequestBody, if_neg hne, if_pos hcond]
    rw [hres]
    refine ⟨rfl, ?_, rfl, ?_⟩
    · simp only [List.length_take]
      omega
    · rw [hn]
  · intro hle
    have hcond : ¬ (((body.take contentLength.toNat).length : Int) +
        ((body.drop contentLength.toNat).length : Int)) > contentLength := by omega
    have hres : sendRequestBody contentLength body =
        { written := body.take contentLength.toNat
          canceledWrite := none
          failure := none } := by
      simp only [sendRequestBody, if_neg hne, if_neg hcond]
    rw [hres]
    exact ⟨rfl, rfl, rfl⟩

/-- Witness for C7: with declared length 2, a 3-byte body yields the
length-mismatch failure (2, 3) after writing the 2-byte cap, and a 1-byte
body yields no failure. -/
theorem sendRequestBody_length_cap_witness :
    (sendRequestBody 2 [1, 2, 3]).written = [1, 2] ∧
    (sendRequestBody 2 [1, 2, 3]).failure = some (2, 3) ∧
    (sendRequestBody 2 [1]).failure = none := by
  refine ⟨?_, ?_, ?_⟩
  · exact ((sendRequestBody_length_cap 2 [1, 2, 3] (by decide)).1 (by decide)).1
  · exact ((sendRequestBody_length_cap 2 [1, 2, 3] (by decide)).1 (by decide)).2.2.2
  · exact ((sendRequestBody_length_cap 2 [1] (by decide)).2 (by decide)).2.1

/-- C8: on the response-receive path of `client.doRequest`, a first frame
that is not a HEADERS frame yields a connection-level FRAME_UNEXPECTED
error; a HEADERS frame whose declared length exceeds the configured maximum
header size yields a stream-level FRAME_ERROR; and a HEADERS frame of
admissible length whose block fails to decode yields a connection-level
general protocol error. -/
theorem response_header_frame_errors (optMax : Int) (readFullOK decodeOK : Bool) :
    (∀ n, receiveResponseHeaders optMax (ParseOutcome.ok (ReqFrame.dataF n))
        readFullOK decodeOK = RecvOutcome.failConn ErrCode.frameUnexpected) ∧
    (receiveResponseHeaders optMax (ParseOutcome.ok ReqFrame.unknown)
        readFullOK decodeOK = RecvOutcome.failConn ErrCode.frameUnexpected) ∧
    (∀ len, len > maxHeaderBytes optMax →
      receiveResponseHeaders optMax (ParseOutcome.ok (ReqFrame.headers len))
        readFullOK decodeOK = RecvOutcome.failStream ErrCode.frameError) ∧
    (∀ len, ¬ len > maxHeaderBytes optMax →
      receiveResponseHeaders optMax (ParseOutcome.ok (ReqFrame.headers len))
        true false = RecvOutcome.failConn ErrCode.generalProtocolError) := by
  refine ⟨fun n => rfl, rfl, ?_, ?_⟩
  · intro len hlen
    simp [receiveResponseHeaders, hlen]
  · intro len hlen
    simp [receiveResponseHeaders, hlen]

/-- Counterexample to C9 as stated: with the goaway cause recorded on the
derived context and the caller's own context done (canceled), the error the
caller receives is the caller's context error, not the goaway error - the
`RoundTripOpt` wrapper overrides even a goaway-classified failure. -/
theorem ctx_error_overrides_goaway_counterexample :
    RoundTripOptErr (roundTripOptFailErr true (HErr.wrapped 0)) (some CtxErr.canceled)
        = HErr.ofCtx CtxErr.canceled ∧
    RoundTripOptErr (roundTripOptFailErr true (HErr.wrapped 0)) (some CtxErr.canceled)
        ≠ HErr.goaway := by
  decide

/-- C9 as amended: on a failing request, when the caller's own request
context is done the returned error is always the caller's context error
(this takes precedence even over a recorded goaway cause); when it is not
done, a recorded goaway cause yields exactly the goaway error, and otherwise
the wrapped request error is returned - so the result is always one of these
three classes and caller cancellation is never reported as an unclassified
error. -/
theorem returned_error_classification (causeIsGoaway : Bool) (e : HErr)
    (reqCtxErr : Option CtxErr) :
    (reqCtxErr = none → causeIsGoaway = true →
      RoundTripOptErr (roundTripOptFailErr causeIsGoaway e) reqCtxErr = HErr.goaway) ∧
    (∀ c, reqCtxErr = some c →
      RoundTripOptErr (roundTripOptFailErr causeIsGoaway e) reqCtxErr
        = HErr.ofCtx c) ∧
    (reqCtxErr = none → causeIsGoaway = false →
      RoundTripOptErr (roundTripOptFailErr causeIsGoaway e) reqCtxErr = e) := by
  refine ⟨?_, ?_, ?_⟩
  · intro hn hg
    subst hn hg
    rfl
  · intro c hc
    subst hc
    rfl
  · intro hn hg
    subst hn hg
    rfl

/-- C10: for a request whose method is one of the 0-RTT pseudo-methods, the
method switch of `client.roundTripOpt` leaves every existing request cell of
the heap - in particular the caller's request - untouched, and sends a fresh
copy that agrees with the caller's request on every field except the method,
which is rewritten to GET respectively HEAD. -/
theorem zero_rtt_request_copy (st : ReqStore) (a : Nat) (ha : a < st.next) :
    ((st.read a).method = "GET_0RTT" →
      (∀ b, b < st.next → (rewrite0RTT st a).1.read b = st.read b) ∧
      (rewrite0RTT st a).2 ≠ a ∧
      (rewrite0RTT st a).1.read (rewrite0RTT st a).2
        = { st.read a with method := "GET" }) ∧
    ((st.read a).method = "HEAD_0RTT" →
      (∀ b, b < st.next → (rewrite0RTT st a).1.read b = st.read b) ∧
      (rewrite0RTT st a).2 ≠ a ∧
      (rewrite0RTT st a).1.read (rewrite0RTT st a).2
        = { st.read a with method := "HEAD" }) := by
  constructor
  · intro hm
    have hrw : rewrite0RTT st a
        = (ReqStore.writeMethod (st.alloc (st.read a)).1 (st.alloc (st.read a)).2 "GET",
          (st.alloc (st.read a)).2) := by
      simp only [rewrite0RTT, if_pos hm]
    refine ⟨?_, ?_, ?_⟩
    · intro b hb
      have hbne : ¬ b = st.next := by omega
      rw [hrw]
      simp [ReqStore.writeMethod, ReqStore.alloc, ReqStore.read, hbne]
    · rw [hrw]
      simp only [ReqStore.alloc]
      omega
    · rw [hrw]
      simp [ReqStore.writeMethod, ReqStore.alloc, ReqStore.read]
  · intro hm
    have hg : ¬ (st.read a).method = "GET_0RTT" := by
      rw [hm]
      decide
    have hrw : rewrite0RTT st a
        = (ReqStore.writeMethod (st.alloc (st.read a)).1 (st.alloc (st.read a)).2 "HEAD",
          (st.alloc (st.read a)).2) := by
      simp only [rewrite0RTT, if_neg hg, if_pos hm]
    refine ⟨?_, ?_, ?_⟩
    · intro b hb
      have hbne : ¬ b = st.next := by omega
      rw [hrw]
      simp [ReqStore.writeMethod, ReqStore.alloc, ReqStore.read, hbne]
    · rw [hrw]
      simp only [ReqStore.alloc]
      omega
    · rw [hrw]
      simp [ReqStore.writeMethod, ReqStore.alloc, ReqStore.read]

/-- Witness for C10 at a one-cell heap holding a GET_0RTT request: the
caller's cell still holds GET_0RTT afterwards and the fresh copy holds GET. -/
theorem zero_rtt_request_copy_witness :
    (rewrite0RTT
        { mem := fun _ => { method := "GET_0RTT", header := ⟨[]⟩, contentLength := 0 },
          next := 1 } 0).1.read 0
      = { method := "GET_0RTT", header := ⟨[]⟩, contentLength := 0 } ∧
    (rewrite0RTT
        { mem := fun _ => { method := "GET_0RTT", header := ⟨[]⟩, contentLength := 0 },
          next := 1 } 0).1.read
      (rewrite0RTT
        { mem := fun _ => { method := "GET_0RTT", header := ⟨[]⟩, contentLength := 0 },
          next := 1 } 0).2
      = { method := "GET", header := ⟨[]⟩, contentLength := 0 } := by
  constructor
  · exact ((zero_rtt_request_copy
      { mem := fun _ => { method := "GET_0RTT", header := ⟨[]⟩, contentLength := 0 },
        next := 1 } 0 (by decide)).1 rfl).1 0 (by decide)
  · exact ((zero_rtt_request_copy
      { mem := fun _ => { method := "GET_0RTT", header := ⟨[]⟩, contentLength := 0 },
        next := 1 } 0 (by decide)).1 rfl).2.2

end H3
